import Mathlib

/-
Verification of the personal finance tracker (src/app.py) against its
specification.  The Python/pandas code is shallowly embedded below:

* a cell of an uploaded table is a `Value` (string, number, or missing/NaN);
  numbers are modelled as exact rationals, so binary floating point rounding
  artifacts are not modelled;
* a table (`Table`) is a list of column names plus one lookup function per
  row; the model assumes the frame has no duplicate column names after
  renaming (pandas raises on most operations over duplicate labels);
* code that can raise returns `Except String`.
-/

set_option maxRecDepth 4096

deriving instance DecidableEq for Except

/-- A cell value of an uploaded table: a string, a number, or a missing
value (pandas `NaN`). -/
inductive Value where
  | vStr : String → Value
  | vNum : Rat → Value
  | vNull : Value
deriving DecidableEq, Repr

/-- A canonical transaction row, as stored in the `transactions` table
(the auto-assigned id is omitted).  `amount = none` models a stored NaN. -/
structure Txn where
  date : String
  category : Value
  amount : Option Rat
  type : String
  notes : Value
deriving DecidableEq, Repr

/-- An uploaded data frame: ordered column names, and each row as a
function from column name to cell value (cells outside `cols` are never
read by the code below). -/
structure Table where
  cols : List String
  rows : List (String → Value)

/-- All values of one column, in row order (pandas `df[c]`). -/
def Table.col (t : Table) (c : String) : List Value :=
  t.rows.map (fun r => r c)

/-- Column membership test (pandas `c in df`). -/
def Table.hasCol (t : Table) (c : String) : Bool :=
  t.cols.contains c

/-- Assigning a fresh column (pandas `df[n] = vs`); `vs` must have one
value per row. -/
def Table.addCol (t : Table) (n : String) (vs : List Value) : Table :=
  ⟨t.cols ++ [n],
   (t.rows.zip vs).map (fun rv => fun c => if c = n then rv.2 else rv.1 c)⟩

/-- Boolean substring test (Python `needle in hay`). -/
def containsSub (needle hay : String) : Bool :=
  decide (needle.toList <:+: hay.toList)

/-- Lowercase a string (Python `.lower()`), character by character; only
ASCII case is modelled, which covers every name the code compares. -/
def strLower (s : String) : String := String.mk (s.toList.map Char.toLower)

/-- Strip surrounding whitespace (Python `.strip()`). -/
def strTrim (s : String) : String :=
  String.mk (((s.toList.dropWhile Char.isWhitespace).reverse.dropWhile Char.isWhitespace).reverse)

/-- Sequence of digits to the natural number they denote. -/
def digitsToNat (ds : List Char) : Nat :=
  ds.foldl (fun n c => 10 * n + (c.toNat - 48)) 0

/-- Models Python `float(s)` on a string: optional sign, then digits with
an optional fractional part, surrounding whitespace ignored.  Exponent
notation and the literals inf/nan are not modelled (treated as failures). -/
def parseRat? (s : String) : Option Rat :=
  let cs := (strTrim s).toList
  let res : Int × List Char :=
    match cs with
    | '-' :: rest => (-1, rest)
    | '+' :: rest => (1, rest)
    | _ => (1, cs)
  let intPart := res.2.takeWhile Char.isDigit
  let rest := res.2.dropWhile Char.isDigit
  match rest with
  | [] =>
    if intPart.isEmpty then none
    else some (mkRat (res.1 * (digitsToNat intPart : Int)) 1)
  | '.' :: frac =>
    if frac.all Char.isDigit && !(intPart.isEmpty && frac.isEmpty) then
      some (mkRat (res.1 * ((digitsToNat intPart : Int) * 10 ^ frac.length + (digitsToNat frac : Int)))
        (10 ^ frac.length))
    else none
  | _ => none

/-- Models Python `float(x)` / pandas `astype(float)` on a cell: numbers
are kept, a missing value stays NaN (`none`), and strings are parsed,
raising (`Except.error`) when the string does not parse. -/
def toFloatPy : Value → Except String (Option Rat)
  | .vNum q => .ok (some q)
  | .vNull => .ok none
  | .vStr s =>
    match parseRat? s with
    | some q => .ok (some q)
    | none => .error ("could not convert string to float: " ++ s)

/-- Number of days of a month (with leap years), as validated by
`pd.to_datetime` / `datetime.strptime`. -/
def daysInMonth (y m : Nat) : Nat :=
  if m = 2 then
    (if (y % 4 = 0 && !(y % 100 = 0)) || y % 400 = 0 then 29 else 28)
  else if m = 4 || m = 6 || m = 9 || m = 11 then 30 else 31

/-- Checks that a string is a valid calendar date written exactly as
`YYYY-MM-DD`.  This models the date formats used by the application itself
(its own exports and form inputs); the richer set of formats accepted by
`pd.to_datetime` and non-zero-padded `strptime` inputs is not modelled and
is treated as a parse failure. -/
def validIso (s : String) : Bool :=
  match s.toList with
  | [y1, y2, y3, y4, '-', m1, m2, '-', d1, d2] =>
    if [y1, y2, y3, y4, m1, m2, d1, d2].all Char.isDigit then
      let y := digitsToNat [y1, y2, y3, y4]
      let m := digitsToNat [m1, m2]
      let d := digitsToNat [d1, d2]
      decide (1 ≤ m) && decide (m ≤ 12) && decide (1 ≤ d) && decide (d ≤ daysInMonth y m)
    else false
  | _ => false

/-- Models `pd.to_datetime(v)` followed by `.dt.strftime("%Y-%m-%d")` on a
single cell: an ISO-formatted date string is validated and reproduced
verbatim, everything else raises. -/
def coerceDate : Value → Except String String
  | .vStr s => if validIso s then .ok s else .error ("Unknown datetime string format: " ++ s)
  | .vNum _ => .error "date parse failure on numeric cell"
  | .vNull => .error "date parse failure on missing cell"

/-- The lambda of app.py line 155, applied to the already lowercased type
string: income exactly when the string contains the substring in (or
equals income), expense otherwise. -/
def mapTypeLabel (x : String) : String :=
  if containsSub "in" x || x == "income" then "income" else "expense"

/-- Models `df["type"].str.lower().map(...)` (line 155) on one cell: a
string is lowercased and classified; a non-string cell raises (the `.str`
accessor / `in` test fails on non-strings). -/
def coerceType : Value → Except String String
  | .vStr s => .ok (mapTypeLabel (strLower s))
  | .vNum _ => .error "AttributeError: Can only use .str accessor with string values"
  | .vNull => .error "TypeError: argument of type float is not iterable"

/-- `fillna`: replace a missing value by the given string, keep everything
else. -/
def fillWith (d : String) : Value → Value
  | .vNull => .vStr d
  | v => v

/-- The sign rule of line 139: positive amount means income, everything
else (zero, negative, NaN) means expense. -/
def signType (f : Option Rat) : String :=
  match f with
  | some q => if 0 < q then "income" else "expense"
  | none => "expense"

/-- The vendor→category rules of app.py (`VENDOR_RULES`), in insertion
order. -/
def VENDOR_RULES : List (String × String) :=
  [("uber", "Travel"), ("ola", "Travel"),
   ("zomato", "Food"), ("swiggy", "Food"),
   ("amazon", "Shopping"), ("flipkart", "Shopping"),
   ("electric", "Bills"), ("water", "Bills"), ("gas", "Bills"),
   ("salary", "Income")]

/-- Models Python `str(x)` on a cell (`str(NaN)` is the string nan; the
exact decimal rendering of floats is simplified, which no vendor keyword
can match anyway). -/
def pyStr : Value → String
  | .vStr s => s
  | .vNull => "nan"
  | .vNum q => toString q.num ++ (if q.den = 1 then ".0" else "/" ++ toString q.den)

/-- `suggest_category` of app.py: lowercase the cell's text and return the
category of the first vendor keyword occurring in it, defaulting to
Other. -/
def suggest_category (text : Value) : String :=
  match VENDOR_RULES.find? (fun p => containsSub p.1 (strLower (pyStr text))) with
  | some p => p.2
  | none => "Other"

/-- Python `.lower().strip()` applied to a column name. -/
def lowerStrip (c : String) : String := strTrim (strLower c)

/-- Models the dict comprehension `{c.lower().strip(): c for c in df.columns}`
looked up at key `k`: the last column whose lowercased, stripped name is
`k`, if any. -/
def dictGet (cs : List String) (k : String) : Option String :=
  cs.foldl (fun acc c => if lowerStrip c = k then some c else acc) none

/-- The fixed alias table of `normalize_upload` (canonical field name and
its accepted synonyms, in order). -/
def ALIASES : List (String × List String) :=
  [("date", ["date", "txn_date", "transaction_date"]),
   ("category", ["category", "merchant", "vendor", "description"]),
   ("amount", ["amount", "value", "amt"]),
   ("type", ["type", "txn_type", "credit_debit", "in_out"]),
   ("notes", ["notes", "remark", "memo", "narration"])]

/-- For one canonical field: the input column claimed by the first alias
that matches (the inner loop with `break`). -/
def firstAlias (cs : List String) (options : List String) : Option String :=
  options.findSome? (fun opt => dictGet cs opt)

/-- The `rename_map` built by `normalize_upload`: original column name to
canonical field name. -/
def buildRenameMap (cs : List String) : List (String × String) :=
  ALIASES.filterMap (fun p => (firstAlias cs p.2).map (fun orig => (orig, p.1)))

/-- `df.rename(columns=rename_map)`: renamed column list, and row access
redirected from a canonical name to the original column it was renamed
from. -/
def renameStep (t : Table) : Table :=
  let m := buildRenameMap t.cols
  ⟨t.cols.map (fun c => ((m.lookup c).getD c)),
   t.rows.map (fun r => fun c =>
     match m.find? (fun p => p.2 == c) with
     | some p => r p.1
     | none => r c)⟩

/-- Error-propagating map (pandas `apply` / `astype`: the first raising
cell aborts the whole operation). -/
def mapME : List α → (α → Except String β) → Except String (List β)
  | [], _ => .ok []
  | x :: xs, f =>
    match f x with
    | .error e => .error e
    | .ok y =>
      match mapME xs f with
      | .error e => .error e
      | .ok ys => .ok (y :: ys)

/-- Lines 136-141: if no type column was detected, derive it from the
amount's sign when an amount column exists, else default every row to
expense. -/
def deriveTypeStep (t : Table) : Except String Table :=
  if t.hasCol "type" then .ok t
  else if t.hasCol "amount" then
    match mapME (t.col "amount") (fun v => (toFloatPy v).map (fun f => Value.vStr (signType f))) with
    | .error e => .error e
    | .ok tys => .ok (t.addCol "type" tys)
  else .ok (t.addCol "type" (t.rows.map (fun _ => Value.vStr "expense")))

/-- Lines 142-143: if no category column was detected, derive it with
`suggest_category` from the notes column, else from a description column,
else raise — `df.get(..., "Other")` falls back to the bare string Other,
which has no `.apply`, so the code raises AttributeError instead of
defaulting. -/
def deriveCategoryStep (t : Table) : Except String Table :=
  if t.hasCol "category" then .ok t
  else if t.hasCol "notes" then
    .ok (t.addCol "category" ((t.col "notes").map (fun v => Value.vStr (suggest_category v))))
  else if t.hasCol "description" then
    .ok (t.addCol "category" ((t.col "description").map (fun v => Value.vStr (suggest_category v))))
  else .error "AttributeError: str object has no attribute apply"

/-- Lines 144-145: default the notes column to the empty string. -/
def defaultNotesStep (t : Table) : Table :=
  if t.hasCol "notes" then t
  else t.addCol "notes" (t.rows.map (fun _ => Value.vStr ""))

/-- The five required canonical columns, in the order they are checked. -/
def REQUIRED : List String := ["date", "category", "amount", "type", "notes"]

/-- Lines 147-150: raise on the first required column still missing. -/
def requireCols (t : Table) : Except String Unit :=
  match REQUIRED.find? (fun c => !(t.hasCol c)) with
  | some c => .error ("Missing column after normalization: " ++ c)
  | none => .ok ()

/-- Rebuild the selected canonical rows from the five coerced columns
(`df[["date", "category", "amount", "type", "notes"]]`). -/
def zip5 : List String → List Value → List (Option Rat) → List String → List Value → List Txn
  | d :: ds, c :: cs, a :: amts, ty :: tys, n :: ns =>
    ⟨d, c, a, ty, n⟩ :: zip5 ds cs amts tys ns
  | _, _, _, _, _ => []

/-- Lines 152-159: coerce the date, amount and type columns (each raising
on the first bad cell, in that column order), fill missing categories and
notes, and return the canonical rows. -/
def coerceStep (t : Table) : Except String (List Txn) :=
  match mapME (t.col "date") coerceDate with
  | .error e => .error e
  | .ok dates =>
    match mapME (t.col "amount") toFloatPy with
    | .error e => .error e
    | .ok amts =>
      match mapME (t.col "type") coerceType with
      | .error e => .error e
      | .ok tys =>
        .ok (zip5 dates ((t.col "category").map (fillWith "Other")) amts tys
              ((t.col "notes").map (fillWith "")))

/-- `normalize_upload` of app.py: rename columns by the alias table, derive
missing type/category/notes, check the required columns, coerce formats and
return the canonical rows. -/
def normalize_upload (t0 : Table) : Except String (List Txn) :=
  let t := renameStep t0
  match deriveTypeStep t with
  | .error e => .error e
  | .ok t1 =>
    match deriveCategoryStep t1 with
    | .error e => .error e
    | .ok t2 =>
      let t3 := defaultNotesStep t2
      match requireCols t3 with
      | .error e => .error e
      | .ok _ => coerceStep t3

/-- The `/add` form handler: validate the date (strptime %Y-%m-%d), parse
the amount with `float`, check the type, and append a single row; on any
validation failure the stored list is unchanged and `false` is returned
(the flashed error). -/
def add_transaction (stored : List Txn) (date category amount ty ntext : String) :
    List Txn × Bool :=
  if validIso date then
    match parseRat? amount with
    | some q =>
      if ty = "income" ∨ ty = "expense" then
        (stored ++ [⟨date, .vStr (strTrim category), some q, ty, .vStr (strTrim ntext)⟩], true)
      else (stored, false)
    | none => (stored, false)
  else (stored, false)

/-- The `/upload` POST handler: `parsed` is the result of reading the file
(`pd.read_csv` / `pd.read_excel`); any error from reading or from
`normalize_upload` is caught and flashed, leaving the stored table
unchanged, otherwise all normalized rows are appended in one bulk insert
and their count flashed. -/
def upload (stored : List Txn) (parsed : Except String Table) :
    List Txn × Except String Nat :=
  match parsed with
  | .error e => (stored, .error ("Upload failed: " ++ e))
  | .ok df =>
    match normalize_upload df with
    | .error e => (stored, .error ("Upload failed: " ++ e))
    | .ok rows => (stored ++ rows, .ok rows.length)

/-- One stored date sent through `get_df` (`pd.to_datetime`) and back
through `strftime("%Y-%m-%d")` in the export route. -/
def exportDate (s : String) : Except String String :=
  if validIso s then .ok s else .error ("unparseable stored date: " ++ s)

/-- The `/export` route: on an empty table, no file is produced (`none`);
otherwise the stored rows are serialized with dates re-rendered as
ISO 8601 strings and all other fields verbatim. -/
def exportCsv (stored : List Txn) : Except String (Option (List Txn)) :=
  if stored.isEmpty then .ok none
  else
    match mapME stored (fun t => (exportDate t.date).map (fun d => { t with date := d })) with
    | .error e => .error e
    | .ok out => .ok (some out)

/-- Sum of a list of stored amounts (pandas `.sum()` skips NaN). -/
def sumAmounts (ts : List Txn) : Rat :=
  ts.foldl (fun acc t => acc + t.amount.getD 0) 0

/-- Round an integer-valued position half to even (Python `round`), on the
exact rational value. -/
def roundHalfEven (q : Rat) : Int :=
  let f : Int := q.floor
  let frac : Rat := q - (f : Rat)
  if frac < 1 / 2 then f
  else if 1 / 2 < frac then f + 1
  else if f % 2 = 0 then f else f + 1

/-- Python `round(q, 2)` on the exact rational value. -/
def round2 (q : Rat) : Rat := (roundHalfEven (q * 100) : Rat) / 100

/-- Month key of a stored ISO date (`dt.to_period("M")` rendered as a
string): its first seven characters, YYYY-MM. -/
def monthOf (d : String) : String := String.mk (d.toList.take 7)

/-- Add an amount to the (month, type) group, keeping first-seen group
order. -/
def addToGroup (acc : List ((String × String) × Rat)) (k : String × String) (v : Rat) :
    List ((String × String) × Rat) :=
  match acc with
  | [] => [(k, v)]
  | (k2, s) :: rest =>
    if k2 = k then (k2, s + v) :: rest else (k2, s) :: addToGroup rest k v

/-- The monthly (month, type) amount sums behind the trend chart (pandas
sorts group keys; the order of the groups is not relied on by any claim). -/
def groupMonthly (txns : List Txn) : List ((String × String) × Rat) :=
  txns.foldl (fun acc t => addToGroup acc (monthOf t.date, t.type) (t.amount.getD 0)) []

/-- The data rendered by the dashboard route: the three totals and the two
optional charts (modelled by the data series each chart is built from). -/
structure Dashboard where
  income : Rat
  expense : Rat
  balance : Rat
  categoryPlot : Option (List (Value × Option Rat))
  trendPlot : Option (List ((String × String) × Rat))
deriving Repr

/-- The `/` dashboard route: zeros and no charts on an empty table;
otherwise rounded totals, a pie over the expense rows when there are any,
and the monthly trend chart. -/
def home (txns : List Txn) : Dashboard :=
  if txns.isEmpty then ⟨0, 0, 0, none, none⟩
  else
    let incomeRows := txns.filter (fun t => t.type == "income")
    let expenseRows := txns.filter (fun t => t.type == "expense")
    let inc := sumAmounts incomeRows
    let exp := sumAmounts expenseRows
    ⟨round2 inc, round2 exp, round2 (inc - exp),
     (if expenseRows.isEmpty then none
      else some (expenseRows.map (fun t => (t.category, t.amount)))),
     some (groupMonthly txns)⟩

/-- Build a row-access function from an association list of cells (cells
of absent columns read as missing). -/
def rowOf (ps : List (String × Value)) : String → Value :=
  fun c => ((ps.lookup c).getD .vNull)

/-- The row-access function of a canonical transaction laid out under the
five canonical column names. -/
def rowOfTxn (r : Txn) : String → Value :=
  fun c =>
    if c = "date" then .vStr r.date
    else if c = "category" then r.category
    else if c = "amount" then (match r.amount with | some q => .vNum q | none => .vNull)
    else if c = "type" then .vStr r.type
    else if c = "notes" then r.notes
    else .vNull

/-- A dataset already laid out under the five canonical column names, one
column per field of each transaction. -/
def cleanTable (rs : List Txn) : Table :=
  ⟨REQUIRED, rs.map rowOfTxn⟩

/-- The column-name dictionary exactly as the specification words it:
case-insensitive exact match only, with no whitespace trimming (to be
compared against `dictGet`, which also strips the name). -/
def specDictGet (cs : List String) (k : String) : Option String :=
  cs.foldl (fun acc c => if strLower c = k then some c else acc) none

/-- Alias detection exactly as the specification words it: the first alias
matching some column case-insensitively, without whitespace trimming. -/
def specFirstAlias (cs : List String) (options : List String) : Option String :=
  options.findSome? (fun opt => specDictGet cs opt)

/-- Upload whose vendor text mentions amazon, with no category column. -/
def exAmazon : Table :=
  ⟨["date", "amount", "notes"],
   [rowOf [("date", .vStr "2024-01-05"), ("amount", .vNum (-3)), ("notes", .vStr "Amazon Prime")]]⟩

/-- Upload with no category column and also no notes/description column. -/
def exNoNotes : Table :=
  ⟨["date", "amount"],
   [rowOf [("date", .vStr "2024-01-05"), ("amount", .vNum 3)]]⟩

/-- Upload with aliased columns, a parseable date and a parseable amount,
but no category, notes or description column. -/
def exAliasOnly : Table :=
  ⟨["txn_date", "amt"],
   [rowOf [("txn_date", .vStr "2024-02-03"), ("amt", .vStr "7.5")]]⟩

/-- Upload whose date column name carries a trailing space. -/
def exTrailingSpace : Table :=
  ⟨["date ", "amount", "notes"],
   [rowOf [("date ", .vStr "2024-01-05"), ("amount", .vNum 5), ("notes", .vStr "x")]]⟩

/-- Upload whose type column holds the value credit. -/
def exCredit : Table :=
  ⟨["date", "category", "amount", "type", "notes"],
   [rowOf [("date", .vStr "2024-01-05"), ("category", .vStr "Misc"), ("amount", .vNum 5),
           ("type", .vStr "credit"), ("notes", .vStr "x")]]⟩

/-- Upload with no type column and a row whose amount is exactly zero. -/
def exZeroAmount : Table :=
  ⟨["date", "amount", "notes"],
   [rowOf [("date", .vStr "2024-01-05"), ("amount", .vNum 0), ("notes", .vStr "coffee")]]⟩

/-- Upload with no type column and one positive and one negative amount. -/
def exSigned : Table :=
  ⟨["date", "amount", "notes"],
   [rowOf [("date", .vStr "2024-01-05"), ("amount", .vNum 5), ("notes", .vStr "a")],
    rowOf [("date", .vStr "2024-01-06"), ("amount", .vNum (-2)), ("notes", .vStr "b")]]⟩

lemma mapME_length {f : α → Except String β} :
    ∀ {xs : List α} {ys : List β}, mapME xs f = .ok ys → ys.length = xs.length := by
  intro xs
  induction xs with
  | nil => intro ys h; simp [mapME] at h; simp [h.symm]
  | cons x xs ih =>
    intro ys h
    simp only [mapME] at h
    cases hx : f x with
    | error e => rw [hx] at h; exact absurd h (by simp)
    | ok y =>
      rw [hx] at h
      cases hxs : mapME xs f with
      | error e => rw [hxs] at h; exact absurd h (by simp)
      | ok ys2 =>
        rw [hxs] at h
        cases h
        simp [ih hxs]

lemma mapME_mem {f : α → Except String β} :
    ∀ {xs : List α} {ys : List β}, mapME xs f = .ok ys →
      ∀ y ∈ ys, ∃ x ∈ xs, f x = .ok y := by
  intro xs
  induction xs with
  | nil => intro ys h; simp [mapME] at h; subst h; simp
  | cons x xs ih =>
    intro ys h
    simp only [mapME] at h
    cases hx : f x with
    | error e => rw [hx] at h; exact absurd h (by simp)
    | ok y0 =>
      rw [hx] at h
      cases hxs : mapME xs f with
      | error e => rw [hxs] at h; exact absurd h (by simp)
      | ok ys2 =>
        rw [hxs] at h
        cases h
        intro y hy
        rcases List.mem_cons.mp hy with h1 | h2
        · exact ⟨x, by simp, by rw [hx, h1]⟩
        · rcases ih hxs y h2 with ⟨x2, hx2, hfx2⟩
          exact ⟨x2, by simp [hx2], hfx2⟩

lemma mapME_congr_ok {f : α → Except String β} {h : α → β} :
    ∀ {xs : List α}, (∀ x ∈ xs, f x = .ok (h x)) → mapME xs f = .ok (xs.map h) := by
  intro xs
  induction xs with
  | nil => intro; simp [mapME]
  | cons x xs ih =>
    intro hall
    have hx : f x = .ok (h x) := hall x (by simp)
    have hxs : mapME xs f = .ok (xs.map h) := ih (fun a ha => hall a (by simp [ha]))
    simp [mapME, hx, hxs]

lemma mapME_map_ok {f : α → Except String β} {g : γ → α} {h : γ → β} :
    ∀ {xs : List γ}, (∀ x ∈ xs, f (g x) = .ok (h x)) →
      mapME (xs.map g) f = .ok (xs.map h) := by
  intro xs
  induction xs with
  | nil => intro; simp [mapME]
  | cons x xs ih =>
    intro hall
    have hx : f (g x) = .ok (h x) := hall x (by simp)
    have hxs : mapME (xs.map g) f = .ok (xs.map h) := ih (fun a ha => hall a (by simp [ha]))
    simp [mapME, hx, hxs]

lemma mapME_map_comp {f : α → Except String β} {g : β → γ} :
    ∀ {xs : List α},
      mapME xs (fun x => (f x).map g) = (mapME xs f).map (fun ys => ys.map g) := by
  intro xs
  induction xs with
  | nil => simp [mapME, Except.map]
  | cons x xs ih =>
    simp only [mapME, ih]
    cases hx : f x with
    | error e => simp [Except.map]
    | ok y =>
      cases hxs : mapME xs f with
      | error e => simp [Except.map]
      | ok ys => simp [Except.map]

lemma col_length (t : Table) (c : String) : (t.col c).length = t.rows.length := by
  simp [Table.col]

lemma rows_addCol_length (t : Table) (n : String) (vs : List Value)
    (h : vs.length = t.rows.length) : (t.addCol n vs).rows.length = t.rows.length := by
  simp [Table.addCol, h]

lemma col_addCol_self (t : Table) (n : String) (vs : List Value)
    (h : vs.length = t.rows.length) : (t.addCol n vs).col n = vs := by
  simp only [Table.addCol, Table.col, List.map_map]
  have : ((fun r : String → Value => r n) ∘ fun rv : (String → Value) × Value =>
      fun c => if c = n then rv.2 else rv.1 c) = Prod.snd := by
    funext rv; simp
  rw [this]
  exact List.map_snd_zip t.rows vs (by omega)

lemma col_addCol_ne (t : Table) (n c : String) (vs : List Value)
    (hc : c ≠ n) (h : vs.length = t.rows.length) : (t.addCol n vs).col c = t.col c := by
  simp only [Table.addCol, Table.col, List.map_map]
  have h1 : ((fun r : String → Value => r c) ∘ fun rv : (String → Value) × Value =>
      fun c2 => if c2 = n then rv.2 else rv.1 c2) =
      (fun r : String → Value => r c) ∘ Prod.fst := by
    funext rv; simp [hc]
  rw [h1, ← List.map_map]
  rw [List.map_fst_zip t.rows vs (by omega)]

lemma zip5_map_type :
    ∀ (ds : List String) (cs : List Value) (amts : List (Option Rat))
      (tys : List String) (ns : List Value),
      ds.length = tys.length → cs.length = tys.length → amts.length = tys.length →
      ns.length = tys.length →
      (zip5 ds cs amts tys ns).map (fun r => r.type) = tys := by
  intro ds
  induction ds with
  | nil =>
    intro cs amts tys ns h1 _ _ _
    cases tys with
    | nil => rfl
    | cons ty tys => simp at h1
  | cons d ds ih =>
    intro cs amts tys ns h1 h2 h3 h4
    cases tys with
    | nil => simp at h1
    | cons ty tys =>
      cases cs with
      | nil => simp at h2
      | cons c cs =>
        cases amts with
        | nil => simp at h3
        | cons a amts =>
          cases ns with
          | nil => simp at h4
          | cons n ns =>
            simp only [zip5, List.map_cons, List.cons.injEq, true_and]
            exact ih cs amts tys ns (by simpa using h1) (by simpa using h2)
              (by simpa using h3) (by simpa using h4)

lemma mem_zip5_type :
    ∀ (ds : List String) (cs : List Value) (amts : List (Option Rat))
      (tys : List String) (ns : List Value) (r : Txn),
      r ∈ zip5 ds cs amts tys ns → r.type ∈ tys := by
  intro ds
  induction ds with
  | nil => intro cs amts tys ns r h; simp [zip5] at h
  | cons d ds ih =>
    intro cs amts tys ns r h
    cases cs with
    | nil => simp [zip5] at h
    | cons c cs =>
      cases amts with
      | nil => simp [zip5] at h
      | cons a amts =>
        cases tys with
        | nil => simp [zip5] at h
        | cons ty tys =>
          cases ns with
          | nil => simp [zip5] at h
          | cons n ns =>
            simp only [zip5, List.mem_cons] at h
            rcases h with h | h
            · simp [h]
            · simp [ih cs amts tys ns r h]

lemma zip5_maps (f1 : Txn → String) (f2 : Txn → Value) (f3 : Txn → Option Rat)
    (f4 : Txn → String) (f5 : Txn → Value) :
    ∀ (rs : List Txn),
      zip5 (rs.map f1) (rs.map f2) (rs.map f3) (rs.map f4) (rs.map f5) =
        rs.map (fun r => ⟨f1 r, f2 r, f3 r, f4 r, f5 r⟩) := by
  intro rs
  induction rs with
  | nil => rfl
  | cons r rs ih => simp only [List.map_cons, zip5, ih]

lemma foldl_dict_none (k : String) :
    ∀ (cs : List String) (acc : Option String),
      cs.foldl (fun a c => if lowerStrip c = k then some c else a) acc = none ↔
        acc = none ∧ ∀ c ∈ cs, lowerStrip c ≠ k := by
  intro cs
  induction cs with
  | nil => intro acc; simp
  | cons c cs ih =>
    intro acc
    simp only [List.foldl_cons, ih, List.mem_cons]
    by_cases h : lowerStrip c = k
    · simp [h]
    · constructor
      · rintro ⟨h1, h2⟩
        rw [if_neg h] at h1
        exact ⟨h1, fun x hx => by rcases hx with hx | hx; simp [hx, h]; exact h2 x hx⟩
      · rintro ⟨h1, h2⟩
        rw [if_neg h]
        exact ⟨h1, fun x hx => h2 x (Or.inr hx)⟩

lemma foldl_dict_some (k : String) :
    ∀ (cs : List String) (acc : Option String) (v : String),
      cs.foldl (fun a c => if lowerStrip c = k then some c else a) acc = some v →
        acc = some v ∨ (v ∈ cs ∧ lowerStrip v = k) := by
  intro cs
  induction cs with
  | nil => intro acc v h; simp at h; simp [h]
  | cons c cs ih =>
    intro acc v h
    simp only [List.foldl_cons] at h
    rcases ih _ v h with h1 | h1
    · by_cases hc : lowerStrip c = k
      · rw [if_pos hc] at h1
        cases h1
        right
        exact ⟨by simp, hc⟩
      · rw [if_neg hc] at h1
        exact Or.inl h1
    · right
      exact ⟨by simp [h1.1], h1.2⟩

lemma dictGet_none_iff (cs : List String) (k : String) :
    dictGet cs k = none ↔ ∀ c ∈ cs, lowerStrip c ≠ k := by
  unfold dictGet
  rw [foldl_dict_none]
  simp

lemma dictGet_some (cs : List String) (k v : String) (h : dictGet cs k = some v) :
    v ∈ cs ∧ lowerStrip v = k := by
  unfold dictGet at h
  rcases foldl_dict_some k cs none v h with h1 | h1
  · exact absurd h1 (by simp)
  · exact h1

lemma findSome?_none_mem {f : α → Option β} :
    ∀ {l : List α}, l.findSome? f = none → ∀ x ∈ l, f x = none := by
  intro l
  induction l with
  | nil => simp
  | cons a l ih =>
    intro h x hx
    simp only [List.findSome?] at h
    cases ha : f a with
    | some b => rw [ha] at h; exact absurd h (by simp)
    | none =>
      rw [ha] at h
      rcases List.mem_cons.mp hx with hx | hx
      · subst hx; exact ha
      · exact ih h x hx

lemma firstAlias_none (cs : List String) (options : List String)
    (h : firstAlias cs options = none) :
    ∀ opt ∈ options, ∀ c ∈ cs, lowerStrip c ≠ opt := by
  intro opt hopt c hc
  unfold firstAlias at h
  exact (dictGet_none_iff cs opt).mp (findSome?_none_mem h opt hopt) c hc

lemma firstAlias_some :
    ∀ (options : List String) (cs : List String) (orig : String),
      firstAlias cs options = some orig →
      orig ∈ cs ∧ ∃ pre opt post, options = pre ++ opt :: post ∧ lowerStrip orig = opt ∧
        ∀ o ∈ pre, ∀ c ∈ cs, lowerStrip c ≠ o := by
  intro options
  induction options with
  | nil => intro cs orig h; simp [firstAlias] at h
  | cons opt options ih =>
    intro cs orig h
    simp only [firstAlias, List.findSome?] at h
    cases hd : dictGet cs opt with
    | some v =>
      rw [hd] at h
      cases h
      rcases dictGet_some cs opt orig hd with ⟨hmem, hls⟩
      exact ⟨hmem, [], opt, options, rfl, hls, by simp⟩
    | none =>
      rw [hd] at h
      rcases ih cs orig h with ⟨hmem, pre, opt2, post, heq, hls, hpre⟩
      refine ⟨hmem, opt :: pre, opt2, post, by simp [heq], hls, ?_⟩
      intro o ho c hc
      rcases List.mem_cons.mp ho with ho | ho
      · subst ho
        exact (dictGet_none_iff cs o).mp hd c hc
      · exact hpre o ho c hc

lemma mapTypeLabel_cases (x : String) :
    mapTypeLabel x = "income" ∨ mapTypeLabel x = "expense" := by
  unfold mapTypeLabel
  by_cases h : (containsSub "in" x || x == "income") = true
  · simp [h]
  · simp [h]

lemma signType_cases (f : Option Rat) :
    signType f = "income" ∨ signType f = "expense" := by
  unfold signType
  cases f with
  | none => simp
  | some q =>
    by_cases h : 0 < q
    · simp [h]
    · simp [h]

lemma coerceType_signType (f : Option Rat) :
    coerceType (Value.vStr (signType f)) = .ok (signType f) := by
  rcases signType_cases f with h | h
  · rw [h]; decide
  · rw [h]; decide

lemma deriveCategory_ok_shape (t t2 : Table) (h : deriveCategoryStep t = .ok t2) :
    t2 = t ∨ ∃ vs : List Value, vs.length = t.rows.length ∧ t2 = t.addCol "category" vs := by
  unfold deriveCategoryStep at h
  by_cases h1 : t.hasCol "category" = true
  · rw [if_pos h1] at h
    cases h
    exact Or.inl rfl
  · rw [if_neg h1] at h
    by_cases h2 : t.hasCol "notes" = true
    · rw [if_pos h2] at h
      cases h
      exact Or.inr ⟨_, by simp [col_length], rfl⟩
    · rw [if_neg h2] at h
      by_cases h3 : t.hasCol "description" = true
      · rw [if_pos h3] at h
        cases h
        exact Or.inr ⟨_, by simp [col_length], rfl⟩
      · rw [if_neg h3] at h
        exact absurd h (by simp)

lemma defaultNotes_shape (t : Table) :
    defaultNotesStep t = t ∨ ∃ vs : List Value, vs.length = t.rows.length ∧
      defaultNotesStep t = t.addCol "notes" vs := by
  unfold defaultNotesStep
  by_cases h : t.hasCol "notes" = true
  · rw [if_pos h]
    exact Or.inl rfl
  · rw [if_neg h]
    exact Or.inr ⟨_, by simp, rfl⟩

lemma coerce_ok_shape (t : Table) (rows : List Txn) (h : coerceStep t = .ok rows) :
    ∃ dates amts tys,
      mapME (t.col "date") coerceDate = .ok dates ∧
      mapME (t.col "amount") toFloatPy = .ok amts ∧
      mapME (t.col "type") coerceType = .ok tys ∧
      rows = zip5 dates ((t.col "category").map (fillWith "Other")) amts tys
        ((t.col "notes").map (fillWith "")) := by
  unfold coerceStep at h
  cases h1 : mapME (t.col "date") coerceDate with
  | error e => rw [h1] at h; exact absurd h (by simp)
  | ok dates =>
    rw [h1] at h
    cases h2 : mapME (t.col "amount") toFloatPy with
    | error e => rw [h2] at h; exact absurd h (by simp)
    | ok amts =>
      rw [h2] at h
      cases h3 : mapME (t.col "type") coerceType with
      | error e => rw [h3] at h; exact absurd h (by simp)
      | ok tys =>
        rw [h3] at h
        cases h
        exact ⟨dates, amts, tys, rfl, rfl, rfl, rfl⟩

lemma normalize_ok_decomp (t0 : Table) (rows : List Txn)
    (h : normalize_upload t0 = .ok rows) :
    ∃ t1 t2, deriveTypeStep (renameStep t0) = .ok t1 ∧ deriveCategoryStep t1 = .ok t2 ∧
      requireCols (defaultNotesStep t2) = .ok () ∧
      coerceStep (defaultNotesStep t2) = .ok rows := by
  simp only [normalize_upload] at h
  split at h
  · exact absurd h (by simp)
  · rename_i t1 h1
    split at h
    · exact absurd h (by simp)
    · rename_i t2 h2
      split at h
      · exact absurd h (by simp)
      · rename_i u h3
        cases u
        exact ⟨t1, t2, h1, h2, h3, h⟩

lemma derive_noType_ok (t : Table) (t1 : Table)
    (hNoType : t.hasCol "type" = false) (hAmt : t.hasCol "amount" = true)
    (h1 : deriveTypeStep t = .ok t1) :
    ∃ qs, mapME (t.col "amount") toFloatPy = .ok qs ∧
      t1 = t.addCol "type" (qs.map (fun f => Value.vStr (signType f))) := by
  rw [deriveTypeStep, if_neg (by simp [hNoType]), if_pos (by simp [hAmt])] at h1
  split at h1
  · exact absurd h1 (by simp)
  · rename_i tys0 hm
    injection h1 with h1
    rw [mapME_map_comp] at hm
    cases hq : mapME (t.col "amount") toFloatPy with
    | error e => rw [hq] at hm; exact absurd hm (by simp [Except.map])
    | ok qs =>
      rw [hq] at hm
      simp only [Except.map] at hm
      injection hm with hm
      exact ⟨qs, rfl, by rw [← h1, hm]⟩

lemma col_type_after_category_notes (t1 t2 : Table)
    (h2 : deriveCategoryStep t1 = .ok t2) :
    (defaultNotesStep t2).col "type" = t1.col "type" := by
  have hstep2 : t2.col "type" = t1.col "type" := by
    rcases deriveCategory_ok_shape t1 t2 h2 with h | ⟨vs, hlen, h⟩
    · rw [h]
    · rw [h]
      exact col_addCol_ne t1 "category" "type" vs (by decide) hlen
  rcases defaultNotes_shape t2 with h | ⟨vs, hlen, h⟩
  · rw [h, hstep2]
  · rw [h, col_addCol_ne t2 "notes" "type" vs (by decide) hlen, hstep2]

lemma rows_length_after_category_notes (t1 t2 : Table)
    (h2 : deriveCategoryStep t1 = .ok t2) :
    (defaultNotesStep t2).rows.length = t1.rows.length := by
  have hstep2 : t2.rows.length = t1.rows.length := by
    rcases deriveCategory_ok_shape t1 t2 h2 with h | ⟨vs, hlen, h⟩
    · rw [h]
    · rw [h]
      exact rows_addCol_length t1 "category" vs hlen
  rcases defaultNotes_shape t2 with h | ⟨vs, hlen, h⟩
  · rw [h, hstep2]
  · rw [h, rows_addCol_length t2 "notes" vs hlen, hstep2]

lemma normalize_noType_types (t : Table) (rows : List Txn)
    (hok : normalize_upload t = .ok rows)
    (hNoType : (renameStep t).hasCol "type" = false)
    (hAmt : (renameStep t).hasCol "amount" = true) :
    ∃ qs, mapME ((renameStep t).col "amount") toFloatPy = .ok qs ∧
      rows.map (fun r => r.type) = qs.map signType := by
  rcases normalize_ok_decomp t rows hok with ⟨t1, t2, h1, h2, h3, h4⟩
  rcases derive_noType_ok (renameStep t) t1 hNoType hAmt h1 with ⟨qs, hq, ht1⟩
  refine ⟨qs, hq, ?_⟩
  have hlen_g : (qs.map (fun f => Value.vStr (signType f))).length = (renameStep t).rows.length := by
    rw [List.length_map, mapME_length hq, col_length]
  have htype1 : t1.col "type" = qs.map (fun f => Value.vStr (signType f)) := by
    rw [ht1]
    exact col_addCol_self (renameStep t) "type" _ hlen_g
  have htype3 : (defaultNotesStep t2).col "type" = qs.map (fun f => Value.vStr (signType f)) := by
    rw [col_type_after_category_notes t1 t2 h2, htype1]
  rcases coerce_ok_shape (defaultNotesStep t2) rows h4 with ⟨dates, amts, tys, hd, ha, htys, hrows⟩
  have htys2 : tys = qs.map signType := by
    rw [htype3] at htys
    rw [mapME_map_ok (fun q _ => coerceType_signType q)] at htys
    injection htys with htys
    exact htys.symm
  have hn : (defaultNotesStep t2).rows.length = t1.rows.length :=
    rows_length_after_category_notes t1 t2 h2
  have htyslen : tys.length = (defaultNotesStep t2).rows.length := by
    rw [mapME_length htys, col_length]
  rw [hrows, htys2.symm]
  refine zip5_map_type dates _ amts tys _ ?_ ?_ ?_ ?_
  · rw [mapME_length hd, col_length, htyslen]
  · rw [List.length_map, col_length, htyslen]
  · rw [mapME_length ha, col_length, htyslen]
  · rw [List.length_map, col_length, htyslen]

lemma normalize_types_mem (t : Table) (rows : List Txn)
    (hok : normalize_upload t = .ok rows) :
    ∀ r ∈ rows, r.type = "income" ∨ r.type = "expense" := by
  intro r hr
  rcases normalize_ok_decomp t rows hok with ⟨t1, t2, h1, h2, h3, h4⟩
  rcases coerce_ok_shape (defaultNotesStep t2) rows h4 with ⟨dates, amts, tys, hd, ha, htys, hrows⟩
  rw [hrows] at hr
  rcases mapME_mem htys r.type (mem_zip5_type _ _ _ _ _ r hr) with ⟨v, hv, hcv⟩
  cases v with
  | vStr s =>
    simp only [coerceType] at hcv
    injection hcv with hcv
    rw [← hcv]
    exact mapTypeLabel_cases (strLower s)
  | vNum q => simp [coerceType] at hcv
  | vNull => simp [coerceType] at hcv

lemma list_map_congr {f g : α → β} :
    ∀ {l : List α}, (∀ x ∈ l, f x = g x) → l.map f = l.map g := by
  intro l
  induction l with
  | nil => intro; rfl
  | cons x l ih =>
    intro h
    simp only [List.map_cons, h x (by simp), ih (fun a ha => h a (by simp [ha]))]

lemma fillWith_ne (d : String) (v : Value) (h : v ≠ .vNull) : fillWith d v = v := by
  cases v with
  | vStr s => rfl
  | vNum q => rfl
  | vNull => exact absurd rfl h

lemma clean_col_date (rs : List Txn) :
    (renameStep (cleanTable rs)).col "date" = rs.map (fun r => Value.vStr r.date) := by
  simp only [renameStep, cleanTable, Table.col, List.map_map]
  rfl

lemma clean_col_category (rs : List Txn) :
    (renameStep (cleanTable rs)).col "category" = rs.map (fun r => r.category) := by
  simp only [renameStep, cleanTable, Table.col, List.map_map]
  rfl

lemma clean_col_amount (rs : List Txn) :
    (renameStep (cleanTable rs)).col "amount" =
      rs.map (fun r => match r.amount with | some q => Value.vNum q | none => Value.vNull) := by
  simp only [renameStep, cleanTable, Table.col, List.map_map]
  rfl

lemma clean_col_type (rs : List Txn) :
    (renameStep (cleanTable rs)).col "type" = rs.map (fun r => Value.vStr r.type) := by
  simp only [renameStep, cleanTable, Table.col, List.map_map]
  rfl

lemma clean_col_notes (rs : List Txn) :
    (renameStep (cleanTable rs)).col "notes" = rs.map (fun r => r.notes) := by
  simp only [renameStep, cleanTable, Table.col, List.map_map]
  rfl

lemma normalize_clean (rs : List Txn)
    (hclean : ∀ r ∈ rs, validIso r.date = true ∧ (r.type = "income" ∨ r.type = "expense") ∧
      r.category ≠ Value.vNull ∧ r.notes ≠ Value.vNull) :
    normalize_upload (cleanTable rs) = .ok rs := by
  have h1 : deriveTypeStep (renameStep (cleanTable rs)) = .ok (renameStep (cleanTable rs)) := by
    rw [deriveTypeStep, if_pos]
    rfl
  have h2 : deriveCategoryStep (renameStep (cleanTable rs)) = .ok (renameStep (cleanTable rs)) := by
    rw [deriveCategoryStep, if_pos]
    rfl
  have h3 : defaultNotesStep (renameStep (cleanTable rs)) = renameStep (cleanTable rs) := by
    rw [defaultNotesStep, if_pos]
    rfl
  have h4 : requireCols (renameStep (cleanTable rs)) = .ok () := rfl
  have hd : mapME ((renameStep (cleanTable rs)).col "date") coerceDate =
      .ok (rs.map (fun r => r.date)) := by
    rw [clean_col_date]
    exact mapME_map_ok (fun r hr => by simp [coerceDate, (hclean r hr).1])
  have ha : mapME ((renameStep (cleanTable rs)).col "amount") toFloatPy =
      .ok (rs.map (fun r => r.amount)) := by
    rw [clean_col_amount]
    refine mapME_map_ok (fun r hr => ?_)
    cases hq : r.amount with
    | some q => simp [toFloatPy]
    | none => simp [toFloatPy]
  have hty : mapME ((renameStep (cleanTable rs)).col "type") coerceType =
      .ok (rs.map (fun r => r.type)) := by
    rw [clean_col_type]
    refine mapME_map_ok (fun r hr => ?_)
    rcases (hclean r hr).2.1 with h | h
    · rw [h]; decide
    · rw [h]; decide
  have hcat : ((renameStep (cleanTable rs)).col "category").map (fillWith "Other") =
      rs.map (fun r => r.category) := by
    rw [clean_col_category, List.map_map]
    exact list_map_congr (fun r hr => fillWith_ne "Other" r.category (hclean r hr).2.2.1)
  have hnts : ((renameStep (cleanTable rs)).col "notes").map (fillWith "") =
      rs.map (fun r => r.notes) := by
    rw [clean_col_notes, List.map_map]
    exact list_map_congr (fun r hr => fillWith_ne "" r.notes (hclean r hr).2.2.2)
  have hco : coerceStep (renameStep (cleanTable rs)) = .ok rs := by
    rw [coerceStep, hd, ha, hty, hcat, hnts]
    simp only [zip5_maps]
    have : rs.map (fun r : Txn => (⟨r.date, r.category, r.amount, r.type, r.notes⟩ : Txn)) =
        rs.map (fun r => r) := rfl
    rw [this]
    simp
  simp only [normalize_upload, h1, h2, h3, h4, hco]

/-- C1 counterexample: the /add handler accepts a transaction with amount
-5 (only the date format, float parse and type are validated), so the
claimed invariant amount ≥ 0 fails on accepted transactions. -/
theorem C1_negative_amount_accepted :
    add_transaction [] "2024-01-05" "food" "-5" "expense" "" =
      ([⟨"2024-01-05", .vStr "food", some (-5), "expense", .vStr ""⟩], true) ∧
    (-5 : Rat) < 0 := by
  exact ⟨by decide, by decide⟩

/-- C1 amended: every transaction accepted into storage, via the /add form
handler or via normalize_upload on a bulk upload, has kind income or
expense; amount non-negativity is not enforced on either path. -/
theorem C1_kind_invariant :
    (∀ (stored : List Txn) (d c a ty n : String) (res : List Txn),
      add_transaction stored d c a ty n = (res, true) →
      ∀ r ∈ res, r ∈ stored ∨ r.type = "income" ∨ r.type = "expense") ∧
    (∀ (t : Table) (rows : List Txn), normalize_upload t = .ok rows →
      ∀ r ∈ rows, r.type = "income" ∨ r.type = "expense") := by
  constructor
  · intro stored d c a ty n res h r hr
    rw [add_transaction] at h
    split at h
    · split at h
      · rename_i q hq
        split at h
        · rename_i hty
          injection h with h1 h2
          rw [← h1] at hr
          rcases List.mem_append.mp hr with hmem | hmem
          · exact Or.inl hmem
          · right
            have hrr : r = ⟨d, .vStr (strTrim c), some q, ty, .vStr (strTrim n)⟩ := by
              simpa using hmem
            rw [hrr]
            exact hty
        · simp at h
      · simp at h
    · simp at h
  · exact fun t rows hok => normalize_types_mem t rows hok

/-- C1 witness: the amended kind invariant applied to a concrete accepted
/add submission. -/
theorem C1_kind_invariant_witness :
    (⟨"2024-01-05", .vStr "gift", some (-7), "income", .vStr ""⟩ : Txn) ∈ ([] : List Txn) ∨
    (⟨"2024-01-05", .vStr "gift", some (-7), "income", .vStr ""⟩ : Txn).type = "income" ∨
    (⟨"2024-01-05", .vStr "gift", some (-7), "income", .vStr ""⟩ : Txn).type = "expense" :=
  C1_kind_invariant.1 [] "2024-01-05" "gift" "-7" "income" ""
    [⟨"2024-01-05", .vStr "gift", some (-7), "income", .vStr ""⟩] (by decide)
    ⟨"2024-01-05", .vStr "gift", some (-7), "income", .vStr ""⟩ (by decide)

/-- C2 counterexample: importing a dataset whose type column holds credit
stores kind expense, and the export reproduces expense, not the original
credit, so Export(Import(X)) does not reproduce X's kind field. -/
theorem C2_roundtrip_counterexample :
    exportCsv (upload [] (.ok exCredit)).1 =
      .ok (some [⟨"2024-01-05", .vStr "Misc", some 5, "expense", .vStr "x"⟩]) ∧
    exCredit.rows.map (fun r => r "type") = [Value.vStr "credit"] ∧
    Value.vStr "expense" ≠ Value.vStr "credit" := by
  exact ⟨by decide, by decide, by decide⟩

/-- C2 amended: for datasets already in canonical form, with canonical
column names, ISO dates, kind already income or expense and non-missing
category and notes, exporting after importing reproduces the five fields
date, amount, category, kind and notes exactly (dates as ISO strings);
in general export reproduces the stored normalized values instead. -/
theorem C2_roundtrip_canonical (rs : List Txn)
    (hclean : ∀ r ∈ rs, validIso r.date = true ∧ (r.type = "income" ∨ r.type = "expense") ∧
      r.category ≠ Value.vNull ∧ r.notes ≠ Value.vNull)
    (hne : rs ≠ []) :
    normalize_upload (cleanTable rs) = .ok rs ∧
    exportCsv (upload [] (.ok (cleanTable rs))).1 = .ok (some rs) := by
  have hnorm := normalize_clean rs hclean
  refine ⟨hnorm, ?_⟩
  have hup : (upload [] (.ok (cleanTable rs))).1 = rs := by
    simp [upload, hnorm]
  rw [hup, exportCsv]
  have hie : rs.isEmpty = false := by
    cases rs with
    | nil => exact absurd rfl hne
    | cons r rs => rfl
  rw [if_neg (by simp [hie])]
  have hm : mapME rs (fun t => (exportDate t.date).map (fun d => { t with date := d })) =
      .ok (rs.map (fun r => r)) := by
    refine mapME_congr_ok (fun r hr => ?_)
    have hev : exportDate r.date = .ok r.date := by
      simp [exportDate, (hclean r hr).1]
    rw [hev]
    rfl
  rw [hm]
  simp

/-- C2 witness: the canonical round trip on a concrete one-row dataset. -/
theorem C2_roundtrip_canonical_witness :
    normalize_upload (cleanTable [⟨"2024-03-01", .vStr "Pay", some 100, "income", .vStr "march"⟩]) =
      .ok [⟨"2024-03-01", .vStr "Pay", some 100, "income", .vStr "march"⟩] ∧
    exportCsv (upload []
        (.ok (cleanTable [⟨"2024-03-01", .vStr "Pay", some 100, "income", .vStr "march"⟩]))).1 =
      .ok (some [⟨"2024-03-01", .vStr "Pay", some 100, "income", .vStr "march"⟩]) :=
  C2_roundtrip_canonical [⟨"2024-03-01", .vStr "Pay", some 100, "income", .vStr "march"⟩]
    (by decide) (by decide)

/-- C3: when no type column is detected and an amount column is, every
normalized row's kind is the sign rule of its amount: the amounts parse to
some list qs and the output kinds are exactly qs mapped through the sign
rule, which sends every positive amount to income and every negative
amount to expense. -/
theorem C3_sign_derivation (t : Table) (rows : List Txn)
    (hok : normalize_upload t = .ok rows)
    (hNoType : (renameStep t).hasCol "type" = false)
    (hAmt : (renameStep t).hasCol "amount" = true) :
    (∃ qs, mapME ((renameStep t).col "amount") toFloatPy = .ok qs ∧
      rows.map (fun r => r.type) = qs.map signType) ∧
    (∀ q : Rat, 0 < q → signType (some q) = "income") ∧
    (∀ q : Rat, q < 0 → signType (some q) = "expense") := by
  refine ⟨normalize_noType_types t rows hok hNoType hAmt, ?_, ?_⟩
  · intro q hq
    simp [signType, hq]
  · intro q hq
    simp [signType, not_lt.mpr (le_of_lt hq)]

/-- C3 witness: the sign derivation applied to a concrete two-row upload
with one positive and one negative amount. -/
theorem C3_sign_derivation_witness :
    ([⟨"2024-01-05", .vStr "Other", some 5, "income", .vStr "a"⟩,
      ⟨"2024-01-06", .vStr "Other", some (-2), "expense", .vStr "b"⟩] : List Txn).map
        (fun r => r.type) = ["income", "expense"] ∧
    signType (some 5) = "income" ∧ signType (some (-2)) = "expense" := by
  obtain ⟨⟨qs, hq, hmap⟩, h2, h3⟩ := C3_sign_derivation exSigned
    [⟨"2024-01-05", .vStr "Other", some 5, "income", .vStr "a"⟩,
     ⟨"2024-01-06", .vStr "Other", some (-2), "expense", .vStr "b"⟩]
    (by decide) (by decide) (by decide)
  have hqs : qs = [some 5, some (-2)] := by
    have hev : mapME ((renameStep exSigned).col "amount") toFloatPy =
        .ok [some 5, some (-2)] := by decide
    rw [hev] at hq
    injection hq with hq
    exact hq.symm
  subst hqs
  exact ⟨by rw [hmap]; decide, h2 5 (by decide), h3 (-2) (by decide)⟩

/-- C4: when the category column is absent the category is derived from
the notes text by first-match vendor keyword lookup (a row mentioning
Amazon is categorized Shopping; unmatched text gets Other), but a table
with neither category nor notes column makes normalize_upload raise
AttributeError instead of defaulting to Other: the fallback argument
Other of df.get is a bare string with no .apply. -/
theorem C4_category_eval :
    suggest_category (.vStr "Amazon Prime") = "Shopping" ∧
    normalize_upload exAmazon =
      .ok [⟨"2024-01-05", .vStr "Shopping", some (-3), "expense", .vStr "Amazon Prime"⟩] ∧
    suggest_category (.vStr "coffee shop") = "Other" ∧
    normalize_upload exNoNotes = .error "AttributeError: str object has no attribute apply" := by
  exact ⟨by decide, by decide, by decide, by decide⟩

/-- C5: a table with an aliased, parseable date column and an aliased,
parseable amount column, from which every required field is derivable
according to the specification, still makes normalize_upload raise: the
category-derivation step crashes with AttributeError because the table
has no notes or description column and the Other fallback of df.get is a
bare string with no .apply. -/
theorem C5_failure_eval :
    normalize_upload exAliasOnly = .error "AttributeError: str object has no attribute apply" := by
  decide

/-- C6 counterexample: a column named with a trailing space (date followed
by a space) is not a case-insensitive exact match of any alias of the
field date, yet normalize_upload detects it as the date column and
succeeds, because the code also strips whitespace from column names. -/
theorem C6_whitespace_counterexample :
    firstAlias ["date ", "amount", "notes"] ["date", "txn_date", "transaction_date"] =
      some "date " ∧
    specFirstAlias ["date ", "amount", "notes"] ["date", "txn_date", "transaction_date"] =
      none ∧
    normalize_upload exTrailingSpace =
      .ok [⟨"2024-01-05", .vStr "Other", some 5, "income", .vStr "x"⟩] := by
  exact ⟨by decide, by decide, by decide⟩

/-- C6 amended: for each canonical field of the fixed alias table, column
detection takes the first alias in the fixed order that matches an input
column case-insensitively after trimming surrounding whitespace
(first-match-wins); when no alias matches under that rule, no column is
detected for the field. -/
theorem C6_first_match_amended (cs : List String) (want : String) (options : List String)
    (_halias : (want, options) ∈ ALIASES) :
    (firstAlias cs options = none → ∀ opt ∈ options, ∀ c ∈ cs, lowerStrip c ≠ opt) ∧
    (∀ orig, firstAlias cs options = some orig →
      orig ∈ cs ∧ ∃ pre opt post, options = pre ++ opt :: post ∧ lowerStrip orig = opt ∧
        ∀ o ∈ pre, ∀ c ∈ cs, lowerStrip c ≠ o) :=
  ⟨fun h => firstAlias_none cs options h,
   fun orig h => firstAlias_some options cs orig h⟩

/-- C6 witness: the amended detection rule applied to the single column
Date followed by a space, matched for the field date. -/
theorem C6_first_match_witness :
    "Date " ∈ ["Date "] ∧ lowerStrip "Date " = "date" := by
  have h := (C6_first_match_amended ["Date "] "date" ["date", "txn_date", "transaction_date"]
    (by decide)).2 "Date " (by decide)
  exact ⟨h.1, by decide⟩

/-- C7: when reading or normalizing an uploaded file fails, the error is
returned as the flashed message and the stored transactions are unchanged;
when the upload succeeds, the new state is exactly the old rows followed
by all normalized rows of the file, inserted in one bulk append. -/
theorem C7_upload_atomic (stored : List Txn) (parsed : Except String Table) :
    (∀ e, (upload stored parsed).2 = .error e → (upload stored parsed).1 = stored) ∧
    (∀ n, (upload stored parsed).2 = .ok n →
      ∃ df rows, parsed = .ok df ∧ normalize_upload df = .ok rows ∧
        (upload stored parsed).1 = stored ++ rows ∧ n = rows.length) := by
  cases parsed with
  | error e =>
    constructor
    · intro e2 h
      rfl
    · intro n h
      simp [upload] at h
  | ok df =>
    cases hn : normalize_upload df with
    | error e =>
      constructor
      · intro e2 h
        simp [upload, hn]
      · intro n h
        simp [upload, hn] at h
    | ok rows =>
      constructor
      · intro e2 h
        simp [upload, hn] at h
      · intro n h
        refine ⟨df, rows, rfl, hn, by simp [upload, hn], ?_⟩
        simp [upload, hn] at h
        exact h.symm

/-- C7 witness: a failed parse leaves an empty stored table unchanged. -/
theorem C7_upload_atomic_witness :
    (upload [] (Except.error "boom")).1 = ([] : List Txn) :=
  (C7_upload_atomic [] (Except.error "boom")).1 "Upload failed: boom" (by decide)

/-- C8: on an empty stored dataset the dashboard shows zero income, zero
expense and zero balance, and renders neither the category pie nor the
monthly trend chart. -/
theorem C8_empty_dashboard : home [] = ⟨0, 0, 0, none, none⟩ := rfl

/-- C9: a present type value maps to income exactly when its lowercased
string contains the substring in or equals income, and to expense in
every other case; in particular credit and debit, values of the accepted
alias column credit_debit, both map to expense. -/
theorem C9_type_mapping :
    (∀ s : String, coerceType (.vStr s) = .ok "income" ↔
      (containsSub "in" (strLower s) = true ∨ strLower s = "income")) ∧
    (∀ s : String, coerceType (.vStr s) = .ok "income" ∨
      coerceType (.vStr s) = .ok "expense") ∧
    coerceType (.vStr "credit") = .ok "expense" ∧
    coerceType (.vStr "debit") = .ok "expense" ∧
    ("type", ["type", "txn_type", "credit_debit", "in_out"]) ∈ ALIASES := by
  refine ⟨?_, ?_, by decide, by decide, by decide⟩
  · intro s
    simp only [coerceType, mapTypeLabel]
    constructor
    · intro h
      injection h with h
      by_cases hc : (containsSub "in" (strLower s) || strLower s == "income") = true
      · simpa using hc
      · rw [if_neg hc] at h
        exact absurd h (by decide)
    · intro h
      have hc : (containsSub "in" (strLower s) || strLower s == "income") = true := by
        rcases h with h | h
        · simp [h]
        · simp [h]
      rw [if_pos hc]
  · intro s
    simp only [coerceType]
    rcases mapTypeLabel_cases (strLower s) with h | h
    · exact Or.inl (by rw [h])
    · exact Or.inr (by rw [h])

/-- C9 witness: the mapping rule applied to the concrete value INcome,
whose lowercase contains the substring in. -/
theorem C9_type_mapping_witness :
    coerceType (.vStr "INcome") = .ok "income" :=
  (C9_type_mapping.1 "INcome").mpr (Or.inl (by decide))

/-- C10: when the type column is absent and an amount column is present, a
row whose amount is exactly zero is classified expense: the sign rule
sends zero to expense, and a concrete zero-amount upload stores kind
expense end to end. -/
theorem C10_zero_amount_expense :
    signType (some 0) = "expense" ∧
    toFloatPy (.vNum 0) = .ok (some 0) ∧
    normalize_upload exZeroAmount =
      .ok [⟨"2024-01-05", .vStr "Other", some 0, "expense", .vStr "coffee"⟩] := by
  exact ⟨by decide, by decide, by decide⟩
